import Mathlib

/-! go-transport-generator: the entry point `cmd/gtg/main.go`

A shallow embedding of `main`: flag values after `flag.Parse()` come in as a
record, the collaborator `servicePreProcessor.Process` comes in as a function,
and a run of `main` is the record of what it printed, what it built, what it
handed to the generation step and the status it passed to `os.Exit`.

Go strings are modelled by Lean strings (sequences of code points).  The two
separators `main` splits on are ASCII, so the byte-level search of
`strings.Split` finds the same occurrences in UTF-8 text.
-/

set_option autoImplicit false

namespace Gtg

/-! ## The part of package `strings` used by `main` -/

section Strings

variable {α : Type} [DecidableEq α]

/-- Function `strings.Index(s, sep)`: the position of the first occurrence of
`sep` in `s`; Go's `-1` is `none`. -/
def Index : List α → List α → Option Nat
  | [], sep => if sep = [] then some 0 else none
  | c :: rest, sep =>
    if sep.isPrefixOf (c :: rest) then some 0
    else (Index rest sep).map (· + 1)

/-- The loop of `strings.genSplit` for a non-empty separator: cut at the first
occurrence, continue behind it, the remainder is the last piece.  `n` bounds
the number of cuts, as the slice length does in Go. -/
def splitLoop (sep : List α) : Nat → List α → List (List α)
  | 0, s => [s]
  | n + 1, s =>
    match Index s sep with
    | none => [s]
    | some m => s.take m :: splitLoop sep n (s.drop (m + sep.length))

/-- Function `strings.Split(s, sep)` on sequences.  With an empty separator Go
explodes `s` into its characters (and returns no piece at all for an empty
`s`); with a non-empty one `genSplit` caps the number of pieces at `len(s)+1`,
that is the number of cuts at `len(s)`. -/
def SplitList (s sep : List α) : List (List α) :=
  if sep = [] then s.map (fun c => [c])
  else splitLoop sep s.length s

end Strings

/-- Function `strings.Split(s, sep)`. -/
def Split (s sep : String) : List String :=
  (SplitList s.data sep.data).map String.mk

/-! ## Constants of `main.go` -/

def httpServer : String := "http-server"
def httpClient : String := "http-client"
def httpsClient : String := "https-client"
def httpErrors : String := "http-errors"
def instrumentingService : String := "metrics"
def logService : String := "log"
def mockService : String := "mock"
def swagger : String := "swagger"

def requestAPIPathSuffix : String := "api-path"
def requestContentTypeSuffix : String := "content-type"
def requestJsonTagSuffix : String := "json-tag"
def requestHeaderSuffix : String := "header"
def requestMethodSuffix : String := "method"
def requestQuerySuffix : String := "query"
def requestURIPathSuffix : String := "uri-path"
def requestErrorsSuffix : String := "errors"
def responseContentTypeSuffix : String := "response-content-type"
def responseContentEncodingSuffix : String := "response-content-encoding"
def responseJsonTagSuffix : String := "response-json-tag"
def responseBodySuffix : String := "response-body"
def responseHeaderSuffix : String := "response-header"
def responseStatusSuffix : String := "response-status"
def swaggerDescriptionSuffix : String := "description"
def swaggerServersSuffix : String := "servers"
def swaggerSummarySuffix : String := "summary"
def swaggerTitleSuffix : String := "title"
def swaggerVersionSuffix : String := "version"

def httpServerPkgName : String := "httpserver"
def httpClientPkgName : String := "httpclient"
def httpErrorsPkgName : String := "httperrors"

def swaggerFilename : String := "swagger"

def tagMark : String := "@gtg"

def httpServerFilePath : List String := ["httpserver", "server.go"]
def httpServerTransportFilePath : List String := ["httpserver", "transport.go"]
def httpServerBuilderFilePath : List String := ["httpserver", "builder.go"]
def httpClientFilePath : List String := ["httpclient", "client.go"]
def httpClientTransportFilePath : List String := ["httpclient", "transport.go"]
def httpClientBuilderFilePath : List String := ["httpclient", "builder.go"]
def httpUIErrorsFilePath : List String := ["httperrors", "ui.go"]
def httpClientErrorsFilePath : List String := ["httperrors", "client.go"]
def serviceInstrumentingFilePath : List String := ["instrumenting.go"]
def serviceLoggingFilePath : List String := ["logging.go"]
def serviceMockFilePath : List String := ["httpclient", "service_mock.go"]

def goGeneratedAutomaticallyPrefix : String := "// CODE GENERATED AUTOMATICALLY"
def yaml : Bool := true

/-- The separator of the entries of the `servers` option: the raw literal of
line 106, the four characters backslash, r, backslash, n. -/
def serversSeparator : String := "\\r\\n"

/-- The separator of URL and description inside one entry. -/
def pairSeparator : String := " = "

/-- What line 109 prints (`fmt.Println` appends the newline). -/
def wrongServersMessage : String :=
  "wrong servers parameters, try use `http://some.url = some url description\r\nhttp://another.url = another url description`\n"

/-! ## Data handed to the generation step -/

/-- Type `v1.Server`. -/
structure Server where
  URL : String
  Description : String
  deriving DecidableEq, Repr

/-- Type of `api.GenerationInfo.SwaggerInfo`, the fields `main` sets. -/
structure SwaggerInfo where
  Description : String
  Title : String
  Version : String
  Servers : List Server
  deriving DecidableEq, Repr

/-- Type `api.GenerationInfo`, the fields `main` sets; the `*bool` fields hold the
value they point to. -/
structure GenerationInfo where
  SwaggerToJson : Bool
  SwaggerToYaml : Bool
  SwaggerInfo : SwaggerInfo
  SwaggerAbsOutputPath : String
  deriving DecidableEq, Repr

/-- The values of the command-line options after `flag.Parse()`. -/
structure Flags where
  inFile : String
  swaggerFile : String
  json : Bool
  yaml : Bool
  desc : String
  title : String
  version : String
  servers : String
  deriving DecidableEq, Repr

/-! ## Lines 105-121: servers and output format -/

/-- The body of the loop of lines 106-116 over the entries still to read;
`none` is the `os.Exit(0)` of line 110. -/
def serversLoop : List String → List Server → Option (List Server)
  | [], acc => some acc
  | srv :: rest, acc =>
    if h : (Split srv pairSeparator).length = 2 then
      serversLoop rest (acc ++ [Server.mk
        ((Split srv pairSeparator).get ⟨0, by omega⟩)
        ((Split srv pairSeparator).get ⟨1, by omega⟩)])
    else none

/-- Lines 105-117: the server list built from the `servers` option, or `none`
when `main` leaves at line 110. -/
def parseServers (servers : String) : Option (List Server) :=
  if servers ≠ "" then serversLoop (Split servers serversSeparator) []
  else some []

/-- Lines 119-121: the values `(*info.SwaggerToJson, *info.SwaggerToYaml)`
after the format resolution. -/
def resolveFormat (json yamlFlag : Bool) : Bool × Bool :=
  if json = false ∧ yamlFlag = false then (json, yaml) else (json, yamlFlag)

/-! ## Lines 123-142: the two directive chains -/

/-- A directive chain as `main` composes it: every constructor of the packages
`request`, `response` and `swagger2` takes the keyword prefix, the keyword
suffix and the next link; `&request2.Term{}` and `&swagger2.Term{}` are the
terminal links, and a Go link may also hold no next link at all. -/
inductive TagParser where
  | nil : TagParser
  | term (pkg : String) : TagParser
  | link (ctor : String) (pfx suffix : String) (next : TagParser) : TagParser
  deriving DecidableEq, Repr

namespace TagParser

/-- The keyword `(prefix, suffix)` pairs of the links of a chain, outermost first. -/
def keywords : TagParser → List (String × String)
  | nil => []
  | term _ => []
  | link _ pfx suffix next => (pfx, suffix) :: keywords next

/-- Whether the innermost link of the chain is a terminal link. -/
def endsInTerm : TagParser → Bool
  | nil => false
  | term _ => true
  | link _ _ _ next => endsInTerm next

/-- The links of the chain registered for a keyword. -/
def registeredFor (p : TagParser) (k : String × String) : List (String × String) :=
  p.keywords.filter (fun l => l = k)

end TagParser

open TagParser in
/-- Lines 123-136. -/
def tagsParser : TagParser :=
  link "response.NewStatus" httpServer responseStatusSuffix <|
  link "response.NewHeader" httpServer responseHeaderSuffix <|
  link "response.NewContentType" httpServer responseContentTypeSuffix <|
  link "response.NewEncodingType" httpServer responseContentEncodingSuffix <|
  link "response.NewJsonTag" httpServer responseJsonTagSuffix <|
  link "response.NewBody" httpServer responseBodySuffix <|
  link "request.NewErrorProcessor" httpServer requestErrorsSuffix <|
  link "request.NewURIPath" httpServer requestURIPathSuffix <|
  link "request.NewQuery" httpServer requestQuerySuffix <|
  link "request.NewMethod" httpServer requestMethodSuffix <|
  link "request.NewHeader" httpServer requestHeaderSuffix <|
  link "request.NewContentType" httpServer requestContentTypeSuffix <|
  link "request.NewJsonTag" httpServer requestJsonTagSuffix <|
  link "request.NewAPIPath" httpServer requestAPIPathSuffix <|
  term "request2"

open TagParser in
/-- Lines 138-142. -/
def swaggerMethodTagParser : TagParser :=
  link "swagger2.NewVersion" swagger swaggerVersionSuffix <|
  link "swagger2.NewTitle" swagger swaggerTitleSuffix <|
  link "swagger2.NewSummary" swagger swaggerSummarySuffix <|
  link "swagger2.NewServers" swagger swaggerServersSuffix <|
  link "swagger2.NewDescription" swagger swaggerDescriptionSuffix <|
  term "swagger2"

/-! ## Lines 144-197: the template helpers -/

/-- The run-time panic of an index expression out of range. -/
inductive Panic where
  | indexOutOfRange (index length : Nat)
  deriving DecidableEq, Repr

/-- Helper `low` (lines 172-176): `a := []rune(s)`, `a[0] = unicode.ToLower(a[0])`,
`string(a)`.  The runes of a string are its `data`; the case mapping of package
`unicode`, which takes code points to code points, is a parameter. -/
def low (toLower : Char → Char) (s : String) : Except Panic String :=
  let a := s.data
  if h : 0 < a.length then
    .ok (String.mk (a.set 0 (toLower (a.get ⟨0, h⟩))))
  else .error (.indexOutOfRange 0 a.length)

/-- Helper `up` (lines 186-190): as `low`, with `unicode.ToUpper`. -/
def up (toUpper : Char → Char) (s : String) : Except Panic String :=
  let a := s.data
  if h : 0 < a.length then
    .ok (String.mk (a.set 0 (toUpper (a.get ⟨0, h⟩))))
  else .error (.indexOutOfRange 0 a.length)

/-- The template `t` of line 144 with the names registered by `t.Funcs`, in
the order of lines 145-197. -/
structure Template where
  name : String
  funcs : List String
  deriving DecidableEq, Repr

def t : Template :=
  Template.mk "" ["mod", "len", "lenVariables", "lenMap", "length", "popFirst", "popLast",
    "joinFullVariables", "joinVariableNames", "low", "getValueMap", "join", "up",
    "stripType", "isSliceType"]

/-! ## Lines 199-244: renderers and processors -/

/-- An import set, identified by the call of `imports.NewImports()` that made
it (calls are numbered in program order). -/
structure Imports where
  allocation : Nat
  deriving DecidableEq, Repr

/-- A template renderer as constructed in lines 201-211: the constructor, the
template, the package name when the constructor takes one, the relative
output path and the import set. -/
structure Render where
  ctor : String
  template : Template
  pkgName : Option String
  filePath : List String
  imp : Imports
  deriving DecidableEq, Repr

/-- The renderer of line 212, `httpserver.NewSwagger(swaggerFilename)`. -/
structure SwaggerRender where
  filename : String
  deriving DecidableEq, Repr

/-- Line 199, the only call of `imports.NewImports()` in `main`. -/
def imp : Imports := Imports.mk 0

def httpServerRender : Render :=
  Render.mk "httpserver.NewServer" t (some httpServerPkgName) httpServerFilePath imp
def httpServerTransportRender : Render :=
  Render.mk "httpserver.NewTransport" t (some httpServerPkgName) httpServerTransportFilePath imp
def httpServerBuilderRender : Render :=
  Render.mk "httpserver.NewBuilder" t (some httpServerPkgName) httpServerBuilderFilePath imp
def httpClientRender : Render :=
  Render.mk "httpclient.NewClient" t (some httpClientPkgName) httpClientFilePath imp
def httpClientTransportRender : Render :=
  Render.mk "httpclient.NewTransport" t (some httpClientPkgName) httpClientTransportFilePath imp
def httpClientBuilderRender : Render :=
  Render.mk "httpclient.NewBuilder" t (some httpClientPkgName) httpClientBuilderFilePath imp
def httpUIErrorsRender : Render :=
  Render.mk "httperrors.NewUI" t (some httpErrorsPkgName) httpUIErrorsFilePath imp
def httpClientErrorsRender : Render :=
  Render.mk "httperrors.NewClient" t (some httpErrorsPkgName) httpClientErrorsFilePath imp
def instrumentingRender : Render :=
  Render.mk "service.NewInstrumenting" t none serviceInstrumentingFilePath imp
def loggingRender : Render :=
  Render.mk "service.NewLogging" t none serviceLoggingFilePath imp
def mockRender : Render :=
  Render.mk "service.NewMock" t (some httpClientPkgName) serviceMockFilePath imp
def swaggerRender : SwaggerRender := SwaggerRender.mk swaggerFilename

/-- The template renderers of lines 201-211, in source order. -/
def renders : List Render :=
  [httpServerRender, httpServerTransportRender, httpServerBuilderRender,
   httpClientRender, httpClientTransportRender, httpClientBuilderRender,
   httpUIErrorsRender, httpClientErrorsRender,
   instrumentingRender, loggingRender, mockRender]

/-- The value of `processor.NewHTTPMethod(tagMark, tagsParser)`, line 214. -/
structure HTTPMethod where
  tagMark : String
  parser : TagParser
  deriving DecidableEq, Repr

def httpMethodProcessor : HTTPMethod := HTTPMethod.mk tagMark tagsParser

/-- The processors of lines 215-241, each the constructor of package
`processor` with its arguments in source order. -/
inductive Processor where
  | NewHTTPServer (server transport builder : Render) (method : HTTPMethod)
  | NewHTTPClient (tls : Bool) (client transport builder : Render) (method : HTTPMethod)
  | NewErrors (tagMark : String) (ui client : Render)
  | NewInstrumenting (r : Render)
  | NewLogging (r : Render)
  | NewMock (r : Render)
  | NewSwagger (tagMark : String) (method : HTTPMethod) (parser : TagParser)
      (modNewMod : Unit) (generatedMark : String)
  deriving DecidableEq, Repr

/-- The map literal of lines 215-241, as its key/value entries in source order. -/
def processors : List (String × Processor) :=
  [ (httpServer, .NewHTTPServer httpServerRender httpServerTransportRender
      httpServerBuilderRender httpMethodProcessor),
    (httpClient, .NewHTTPClient false httpClientRender httpClientTransportRender
      httpClientBuilderRender httpMethodProcessor),
    (httpsClient, .NewHTTPClient true httpClientRender httpClientTransportRender
      httpClientBuilderRender httpMethodProcessor),
    (httpErrors, .NewErrors tagMark httpUIErrorsRender httpClientErrorsRender),
    (instrumentingService, .NewInstrumenting instrumentingRender),
    (logService, .NewLogging loggingRender),
    (mockService, .NewMock mockRender),
    (swagger, .NewSwagger tagMark httpMethodProcessor swaggerMethodTagParser ()
      goGeneratedAutomaticallyPrefix) ]

/-- Everything lines 123-244 build: `preprocessor.NewService(processor.NewServices(tagMark,
processors), goGeneratedAutomaticallyPrefix, swaggerRender)`. -/
structure ServicePreProcessor where
  tagMark : String
  processors : List (String × Processor)
  generatedMark : String
  swaggerRender : SwaggerRender
  deriving DecidableEq, Repr

def servicePreProcessor : ServicePreProcessor :=
  ServicePreProcessor.mk tagMark processors goGeneratedAutomaticallyPrefix swaggerRender

/-! ## `main` -/

/-- What a run of `main` does that can be seen from outside: the text it writes
to standard output, the pre-processor it built (if it came that far), the
arguments of its call of `Process` (if it made one) and the status it gives
to `os.Exit`. -/
structure Run where
  printed : List String
  built : Option ServicePreProcessor
  processed : Option (String × String × GenerationInfo)
  exitStatus : Nat
  deriving DecidableEq, Repr

/-- Function `main` (lines 89-253).  `process path1 path2 info` is the call
`servicePreProcessor.Process(path1, path2, &info)`: `none` for a nil error,
`some msg` for an error whose text is `msg`. -/
def main (process : String → String → GenerationInfo → Option String) (f : Flags) : Run :=
  match parseServers f.servers with
  | none => Run.mk [wrongServersMessage] none none 0
  | some servers =>
    let format := resolveFormat f.json f.yaml
    let info := GenerationInfo.mk format.1 format.2
      (SwaggerInfo.mk f.desc f.title f.version servers) f.swaggerFile
    match process f.inFile f.inFile info with
    | some err =>
      Run.mk ["servicePreProcessor.Process error: " ++ err ++ "\n"]
        (some servicePreProcessor) (some (f.inFile, f.inFile, info)) 0
    | none =>
      Run.mk [] (some servicePreProcessor) (some (f.inFile, f.inFile, info)) 0

/-! ## Vocabulary of the statements about the `servers` option -/

/-- The text of one entry of the `servers` option for a URL and a description,
in the format the usage text of line 102 gives. -/
def entryText (p : String × String) : String := p.1 ++ pairSeparator ++ p.2

/-- The entries written one after the other with `sep` between neighbours
(`strings.Join`). -/
def Join : List String → String → String
  | [], _ => ""
  | [a], _ => a
  | a :: b :: rest, sep => a ++ sep ++ Join (b :: rest) sep

/-- Function `strings.Contains(s, substr)`, which is `Index(s, substr) >= 0`. -/
def Contains (s substr : String) : Bool := (Index s.data substr.data).isSome

/-- The directory part of a renderer's relative output path. -/
def Render.dir (r : Render) : List String := r.filePath.dropLast

/-- A run with no options given except the two format switches. -/
def flagsWith (json yamlFlag : Bool) : Flags :=
  Flags.mk "./pkg/service" "." json yamlFlag "" "" "" ""

/-- A run with the given value of the `servers` option, all else default. -/
def flagsServers (servers : String) : Flags :=
  Flags.mk "./pkg/service" "." false false "" "" "" servers

/-- A generation step that succeeds. -/
def processOk : String → String → GenerationInfo → Option String :=
  fun _ _ _ => none

/-- A generation step that fails with the given error text. -/
def processFails (msg : String) : String → String → GenerationInfo → Option String :=
  fun _ _ _ => some msg

/-! ## Theorems -/

/-! ### Shape of a run -/

theorem main_processed_eq (process : String → String → GenerationInfo → Option String)
    (f : Flags) (servers : List Server) (h : parseServers f.servers = some servers) :
    (main process f).processed = some (f.inFile, f.inFile,
      GenerationInfo.mk (resolveFormat f.json f.yaml).1 (resolveFormat f.json f.yaml).2
        (SwaggerInfo.mk f.desc f.title f.version servers) f.swaggerFile) := by
  unfold main
  rw [h]
  dsimp only
  split <;> rfl

theorem main_processed_none (process : String → String → GenerationInfo → Option String)
    (f : Flags) (h : parseServers f.servers = none) :
    main process f = Run.mk [wrongServersMessage] none none 0 := by
  unfold main
  rw [h]

theorem main_processed_inv (process : String → String → GenerationInfo → Option String)
    (f : Flags) (c : String × String × GenerationInfo)
    (h : (main process f).processed = some c) :
    ∃ servers, parseServers f.servers = some servers ∧
      c = (f.inFile, f.inFile,
        GenerationInfo.mk (resolveFormat f.json f.yaml).1 (resolveFormat f.json f.yaml).2
          (SwaggerInfo.mk f.desc f.title f.version servers) f.swaggerFile) := by
  cases hp : parseServers f.servers with
  | none =>
    rw [main_processed_none process f hp] at h
    cases h
  | some servers =>
    rw [main_processed_eq process f servers hp] at h
    exact ⟨servers, rfl, (Option.some.inj h).symm⟩

/-! ### C1: exit status -/

/-- Claim C1 as stated is refuted: with a generation step that returns the
error "boom", `main` calls it, prints the error and still passes status 0 to
`os.Exit`. -/
theorem exit_status_zero_on_process_error :
    ∃ info, (main (processFails "boom") (flagsWith false false)).processed
        = some ("./pkg/service", "./pkg/service", info) ∧
      processFails "boom" "./pkg/service" "./pkg/service" info = some "boom" ∧
      (main (processFails "boom") (flagsWith false false)).printed =
        ["servicePreProcessor.Process error: boom\n"] ∧
      ¬ (main (processFails "boom") (flagsWith false false)).exitStatus ≠ 0 :=
  ⟨GenerationInfo.mk false true (SwaggerInfo.mk "" "" "" []) ".", by decide, rfl,
    by decide, by decide⟩

/-- Claim C1, amended: whenever the generation step returns an error, `main` prints
the line `servicePreProcessor.Process error: <error>` and nothing else, and the
exit status is 0. -/
theorem process_error_reported_exit_zero
    (process : String → String → GenerationInfo → Option String) (f : Flags)
    (p1 p2 : String) (info : GenerationInfo) (err : String)
    (hcall : (main process f).processed = some (p1, p2, info))
    (herr : process p1 p2 info = some err) :
    (main process f).printed = ["servicePreProcessor.Process error: " ++ err ++ "\n"] ∧
    (main process f).exitStatus = 0 := by
  obtain ⟨servers, hp, hc⟩ := main_processed_inv process f _ hcall
  cases hc
  unfold main
  rw [hp]
  dsimp only
  rw [herr]
  exact ⟨rfl, rfl⟩

/-- Claim C1, amended, at a run with the json switch set and a generation step
failing with "boom". -/
theorem process_error_reported_exit_zero_witness :
    (main (processFails "boom") (flagsWith true false)).printed =
      ["servicePreProcessor.Process error: " ++ "boom" ++ "\n"] ∧
    (main (processFails "boom") (flagsWith true false)).exitStatus = 0 :=
  process_error_reported_exit_zero (processFails "boom") (flagsWith true false)
    "./pkg/service" "./pkg/service"
    (GenerationInfo.mk true false (SwaggerInfo.mk "" "" "" []) ".") "boom"
    (by decide) rfl

/-! ### C2, C3: output format -/

/-- Claim C2: in every run that reaches the generation step, if neither the json nor
the yaml switch is set the info handed over has SwaggerToYaml true and
SwaggerToJson false, and if at least one is set both values are those of the
switches. -/
theorem format_resolution
    (process : String → String → GenerationInfo → Option String) (f : Flags)
    (p1 p2 : String) (info : GenerationInfo)
    (hcall : (main process f).processed = some (p1, p2, info)) :
    (f.json = false ∧ f.yaml = false →
      info.SwaggerToYaml = true ∧ info.SwaggerToJson = false) ∧
    (¬ (f.json = false ∧ f.yaml = false) →
      info.SwaggerToJson = f.json ∧ info.SwaggerToYaml = f.yaml) := by
  obtain ⟨servers, _, hc⟩ := main_processed_inv process f _ hcall
  cases hc
  cases hj : f.json <;> cases hy : f.yaml <;> simp [resolveFormat, yaml]

/-- Claim C2 at a run with neither switch set. -/
theorem format_resolution_witness :
    ((flagsWith false false).json = false ∧ (flagsWith false false).yaml = false →
      (GenerationInfo.mk false true (SwaggerInfo.mk "" "" "" []) ".").SwaggerToYaml = true ∧
      (GenerationInfo.mk false true (SwaggerInfo.mk "" "" "" []) ".").SwaggerToJson = false) ∧
    (¬ ((flagsWith false false).json = false ∧ (flagsWith false false).yaml = false) →
      (GenerationInfo.mk false true (SwaggerInfo.mk "" "" "" []) ".").SwaggerToJson
        = (flagsWith false false).json ∧
      (GenerationInfo.mk false true (SwaggerInfo.mk "" "" "" []) ".").SwaggerToYaml
        = (flagsWith false false).yaml) :=
  format_resolution processOk (flagsWith false false) "./pkg/service" "./pkg/service"
    (GenerationInfo.mk false true (SwaggerInfo.mk "" "" "" []) ".") (by decide)

/-- Claim C3 as stated is refuted: with both switches set, the info handed to the
generation step has SwaggerToJson and SwaggerToYaml both true. -/
theorem both_formats_selected :
    ∃ info, (main processOk (flagsWith true true)).processed
        = some ("./pkg/service", "./pkg/service", info) ∧
      info.SwaggerToJson = true ∧ info.SwaggerToYaml = true :=
  ⟨GenerationInfo.mk true true (SwaggerInfo.mk "" "" "" []) ".", by decide, rfl, rfl⟩

/-- Claim C3, amended: for every combination of the two switches the info handed to
the generation step has at least one of SwaggerToJson and SwaggerToYaml true,
and it has both true exactly when both switches are set. -/
theorem format_at_least_one
    (process : String → String → GenerationInfo → Option String) (f : Flags)
    (p1 p2 : String) (info : GenerationInfo)
    (hcall : (main process f).processed = some (p1, p2, info)) :
    (info.SwaggerToJson = true ∨ info.SwaggerToYaml = true) ∧
    ((info.SwaggerToJson = true ∧ info.SwaggerToYaml = true) ↔
      (f.json = true ∧ f.yaml = true)) := by
  obtain ⟨servers, _, hc⟩ := main_processed_inv process f _ hcall
  cases hc
  cases hj : f.json <;> cases hy : f.yaml <;> simp [resolveFormat, yaml]

/-- Claim C3, amended, at a run with only the json switch set. -/
theorem format_at_least_one_witness :
    ((GenerationInfo.mk true false (SwaggerInfo.mk "" "" "" []) ".").SwaggerToJson = true ∨
      (GenerationInfo.mk true false (SwaggerInfo.mk "" "" "" []) ".").SwaggerToYaml = true) ∧
    (((GenerationInfo.mk true false (SwaggerInfo.mk "" "" "" []) ".").SwaggerToJson = true ∧
      (GenerationInfo.mk true false (SwaggerInfo.mk "" "" "" []) ".").SwaggerToYaml = true) ↔
      ((flagsWith true false).json = true ∧ (flagsWith true false).yaml = true)) :=
  format_at_least_one processOk (flagsWith true false) "./pkg/service" "./pkg/service"
    (GenerationInfo.mk true false (SwaggerInfo.mk "" "" "" []) ".") (by decide)

/-! ### C6: the two client processors -/

/-- The keys of the map literal are pairwise distinct, so an entry is found by
its key. -/
theorem processors_keys_nodup : (processors.map Prod.fst).Nodup := by decide

/-- Claim C6: the processors registered under "http-client" and "https-client" are
both built by `processor.NewHTTPClient` from the same client renderer,
transport renderer, builder renderer and method parser; the boolean is false
for http-client and true for https-client, and nothing else differs. -/
theorem client_variants_differ_only_in_toggle :
    ∃ (client transport builder : Render) (method : HTTPMethod),
      processors.lookup httpClient
        = some (Processor.NewHTTPClient false client transport builder method) ∧
      processors.lookup httpsClient
        = some (Processor.NewHTTPClient true client transport builder method) ∧
      client = httpClientRender ∧ transport = httpClientTransportRender ∧
      builder = httpClientBuilderRender ∧ method = httpMethodProcessor :=
  ⟨httpClientRender, httpClientTransportRender, httpClientBuilderRender, httpMethodProcessor,
    by decide, by decide, rfl, rfl, rfl, rfl⟩

/-! ### C7: keywords of the directive chains -/

theorem registeredFor_le_one_of_nodup (p : TagParser) (h : p.keywords.Nodup)
    (k : String × String) : (p.registeredFor k).length ≤ 1 := by
  unfold TagParser.registeredFor
  generalize p.keywords = ks at h
  induction ks with
  | nil => simp
  | cons a ks ih =>
    obtain ⟨ha, hks⟩ := List.nodup_cons.mp h
    by_cases hak : a = k
    · have hnil : ks.filter (fun l => decide (l = k)) = [] := by
        rw [List.filter_eq_nil_iff]
        intro x hx hxk
        have : x = k := of_decide_eq_true hxk
        exact ha (hak ▸ this ▸ hx)
      simp [List.filter_cons, hak, hnil]
    · have := ih hks
      simp [List.filter_cons, hak]
      exact this

/-- Claim C7: the request/response chain has fourteen links, all with the prefix
"http-server" and with pairwise distinct suffixes; the document chain has five
links, all with the prefix "swagger" and with pairwise distinct suffixes; both
chains end in a terminal link; so for every keyword at most one link of a
chain is registered for it. -/
theorem chain_keywords_distinct :
    (tagsParser.keywords.length = 14 ∧
      (∀ l ∈ tagsParser.keywords, l.1 = "http-server") ∧
      (tagsParser.keywords.map Prod.snd).Nodup ∧
      tagsParser.endsInTerm = true) ∧
    (swaggerMethodTagParser.keywords.length = 5 ∧
      (∀ l ∈ swaggerMethodTagParser.keywords, l.1 = "swagger") ∧
      (swaggerMethodTagParser.keywords.map Prod.snd).Nodup ∧
      swaggerMethodTagParser.endsInTerm = true) ∧
    (∀ k : String × String,
      (tagsParser.registeredFor k).length ≤ 1 ∧
      (swaggerMethodTagParser.registeredFor k).length ≤ 1) := by
  have h1 : (tagsParser.keywords.map Prod.snd).Nodup := by decide
  have h2 : (swaggerMethodTagParser.keywords.map Prod.snd).Nodup := by decide
  refine ⟨⟨by decide, by decide, h1, by decide⟩, ⟨by decide, by decide, h2, by decide⟩, ?_⟩
  intro k
  exact ⟨registeredFor_le_one_of_nodup _ (List.Nodup.of_map _ h1) k,
    registeredFor_le_one_of_nodup _ (List.Nodup.of_map _ h2) k⟩

/-! ### C8: the import set -/

/-- Claim C8 as stated is refuted: the server renderer and the client renderer are
given the same import set and have different target packages and
directories. -/
theorem import_set_shared_across_artifacts :
    httpServerRender ∈ renders ∧ httpClientRender ∈ renders ∧
    httpServerRender.imp = httpClientRender.imp ∧
    httpServerRender.pkgName ≠ httpClientRender.pkgName ∧
    httpServerRender.dir ≠ httpClientRender.dir := by
  decide

/-- Claim C8, amended: `main` creates one import set and gives it to every one of
the eleven template renderers; so renderers generating into the same target
share an import set, and so do renderers of different artifacts. -/
theorem import_set_single :
    renders.length = 11 ∧ (∀ r ∈ renders, r.imp = imp) ∧
    (∀ r1 ∈ renders, ∀ r2 ∈ renders, r1.imp = r2.imp) := by
  decide

/-! ### C9: output paths -/

/-- Claim C9: the eleven relative output paths of the template renderers are
pairwise distinct, and the first segment of the path of every renderer built
with a package name is that package name. -/
theorem output_paths_distinct :
    renders.length = 11 ∧
    (renders.map Render.filePath).Nodup ∧
    (∀ r ∈ renders, ∀ pkg, r.pkgName = some pkg → r.filePath.head? = some pkg) := by
  refine ⟨by decide, by decide, ?_⟩
  intro r hr pkg hp
  have h : ∀ r ∈ renders, r.pkgName = none ∨ r.filePath.head? = r.pkgName := by decide
  rcases h r hr with h | h
  · rw [h] at hp; cases hp
  · rw [h, hp]

/-! ### C10: the helpers `up` and `low` -/

/-- Claim C10: on a non-empty string `up` and `low` return a string with as many
runes as the argument, whose first rune is the upper-case (lower-case) mapping
of the argument's first rune and whose later runes are those of the argument;
on the empty string the access to rune 0 is out of range and the helper
fails. -/
theorem up_low_defined_on_nonempty (toUpper toLower : Char → Char) (s : String) :
    (s ≠ "" → ∃ u l, up toUpper s = .ok u ∧ low toLower s = .ok l ∧
      u.length = s.length ∧ l.length = s.length ∧
      u.data.head? = s.data.head?.map toUpper ∧
      l.data.head? = s.data.head?.map toLower ∧
      ∀ i, 0 < i → u.data[i]? = s.data[i]? ∧ l.data[i]? = s.data[i]?) ∧
    (s = "" → up toUpper s = .error (.indexOutOfRange 0 0) ∧
      low toLower s = .error (.indexOutOfRange 0 0)) := by
  constructor
  · intro hs
    obtain ⟨cs⟩ := s
    cases cs with
    | nil => exact absurd rfl hs
    | cons c rest =>
      refine ⟨String.mk (toUpper c :: rest), String.mk (toLower c :: rest), ?_, ?_, ?_, ?_, ?_, ?_, ?_⟩
      · simp [up]
      · simp [low]
      · simp [String.length]
      · simp [String.length]
      · simp
      · simp
      · intro i hi
        cases i with
        | zero => omega
        | succ j => simp
  · intro hs
    subst hs
    exact ⟨rfl, rfl⟩

/-- Claim C10 at the string "abc" with the ASCII case mappings. -/
theorem up_low_defined_on_nonempty_witness :
    ("abc" ≠ "" → ∃ u l, up Char.toUpper "abc" = .ok u ∧ low Char.toLower "abc" = .ok l ∧
      u.length = "abc".length ∧ l.length = "abc".length ∧
      u.data.head? = "abc".data.head?.map Char.toUpper ∧
      l.data.head? = "abc".data.head?.map Char.toLower ∧
      ∀ i, 0 < i → u.data[i]? = "abc".data[i]? ∧ l.data[i]? = "abc".data[i]?) ∧
    ("abc" = "" → up Char.toUpper "abc" = .error (.indexOutOfRange 0 0) ∧
      low Char.toLower "abc" = .error (.indexOutOfRange 0 0)) :=
  up_low_defined_on_nonempty Char.toUpper Char.toLower "abc"

/-! ### Facts about `Index` and the split loop -/

section SplitFacts

variable {α : Type} [DecidableEq α]

theorem Index_of_isPrefixOf (s sep : List α) (h : sep.isPrefixOf s = true) :
    Index s sep = some 0 := by
  cases s with
  | nil =>
    have hs : sep = [] := by
      cases sep with
      | nil => rfl
      | cons a l => simp [List.isPrefixOf] at h
    simp [Index, hs]
  | cons c rest => simp [Index, h]

/-- Where no occurrence of `sep` begins inside `e`, the first occurrence in
`e ++ sep ++ rest` is the one right behind `e`. -/
theorem Index_append_sep (sep rest e : List α)
    (h : ∀ t, t <:+ e → t ≠ [] → sep.isPrefixOf (t ++ sep ++ rest) = false) :
    Index (e ++ sep ++ rest) sep = some e.length := by
  induction e with
  | nil =>
    apply Index_of_isPrefixOf
    rw [List.isPrefixOf_iff_prefix]
    simp
  | cons c e ih =>
    have hc := h (c :: e) (List.suffix_refl _) (by simp)
    have ih2 := ih (fun t ht hne => h t (ht.trans (List.suffix_cons c e)) hne)
    simp only [List.cons_append] at hc ⊢
    unfold Index
    rw [if_neg (by rw [hc]; exact Bool.false_ne_true), ih2]
    rfl

/-- Where `sep` does not occur, `Index` finds nothing. -/
theorem Index_eq_none (s sep : List α) (hsep : sep ≠ []) (h : ¬ sep <:+: s) :
    Index s sep = none := by
  induction s with
  | nil => simp [Index, hsep]
  | cons c s ih =>
    have h1 : sep.isPrefixOf (c :: s) = false := by
      rw [Bool.eq_false_iff]
      intro hp
      exact h (List.isPrefixOf_iff_prefix.mp hp).isInfix
    have h2 : ¬ sep <:+: s := fun hi => h (hi.trans (List.suffix_cons c s).isInfix)
    simp [Index, h1, ih h2]

/-- What `Index` finds is an occurrence. -/
theorem Index_some_infix (s sep : List α) (m : Nat) (h : Index s sep = some m) :
    sep <:+: s := by
  induction s generalizing m with
  | nil =>
    unfold Index at h
    split at h
    · rename_i hs; rw [hs]
    · cases h
  | cons c s ih =>
    unfold Index at h
    split at h
    · rename_i hp
      exact (List.isPrefixOf_iff_prefix.mp hp).isInfix
    · cases hi : Index s sep with
      | none => rw [hi] at h; cases h
      | some k => exact (ih k hi).trans (List.suffix_cons c s).isInfix

theorem splitLoop_cut (sep s : List α) (n m : Nat) (h : Index s sep = some m) :
    splitLoop sep (n + 1) s = s.take m :: splitLoop sep n (s.drop (m + sep.length)) := by
  simp [splitLoop, h]

theorem splitLoop_whole (sep s : List α) (n : Nat) (h : Index s sep = none) :
    splitLoop sep n s = [s] := by
  cases n with
  | zero => rfl
  | succ k => simp [splitLoop, h]

theorem Index_some_le (s sep : List α) (m : Nat) (h : Index s sep = some m) :
    m + sep.length ≤ s.length := by
  induction s generalizing m with
  | nil =>
    unfold Index at h
    split at h
    · rename_i hs
      cases h
      simp [hs]
    · cases h
  | cons c s ih =>
    unfold Index at h
    split at h
    · rename_i hp
      cases h
      have := (List.isPrefixOf_iff_prefix.mp hp).length_le
      omega
    · cases hi : Index s sep with
      | none => rw [hi] at h; cases h
      | some k =>
        rw [hi] at h
        cases h
        have := ih k hi
        simp only [List.length_cons]
        omega

/-- The bound of the split loop is never what ends it: any two bounds of at
least `len(s)` cuts give the same pieces. -/
theorem splitLoop_bound_irrelevant (sep : List α) (hsep : sep ≠ []) (n1 n2 : Nat)
    (s : List α) (h1 : s.length ≤ n1) (h2 : s.length ≤ n2) :
    splitLoop sep n1 s = splitLoop sep n2 s := by
  have hpos : 0 < sep.length := List.length_pos.mpr hsep
  induction n1 generalizing n2 s with
  | zero =>
    have hs : s = [] := List.eq_nil_of_length_eq_zero (by omega)
    subst hs
    have hi : Index ([] : List α) sep = none := by simp [Index, hsep]
    rw [splitLoop_whole _ _ _ hi, splitLoop_whole _ _ _ hi]
  | succ k ih =>
    cases hi : Index s sep with
    | none => rw [splitLoop_whole _ _ _ hi, splitLoop_whole _ _ _ hi]
    | some m =>
      have hle := Index_some_le s sep m hi
      cases n2 with
      | zero => omega
      | succ j =>
        rw [splitLoop_cut _ _ _ _ hi, splitLoop_cut _ _ _ _ hi]
        congr 1
        apply ih
        · simp only [List.length_drop]; omega
        · simp only [List.length_drop]; omega

end SplitFacts

/-! ### The `servers` option -/

/-- The model of `strings.Split` and of the servers loop on small inputs. -/
theorem Split_examples :
    Split "a = b" " = " = ["a", "b"] ∧
    Split "a = b = c" " = " = ["a", "b", "c"] ∧
    Split "a = = b" " = " = ["a", "= b"] ∧
    Split "" " = " = [""] ∧
    Split "x\\r\\ny" serversSeparator = ["x", "y"] ∧
    serversSeparator.length = 4 ∧
    parseServers "http://a = A\\r\\nhttp://b = B"
      = some [Server.mk "http://a" "A", Server.mk "http://b" "B"] ∧
    parseServers "http://a = A\\r\\n" = none ∧
    parseServers "" = some [] := by
  decide

theorem Contains_iff (s substr : String) :
    Contains s substr = true ↔ ∃ a b : String, s = a ++ substr ++ b := by
  unfold Contains
  constructor
  · intro h
    cases hi : Index s.data substr.data with
    | none => rw [hi] at h; cases h
    | some m =>
      obtain ⟨a, b, hab⟩ := Index_some_infix _ _ _ hi
      exact ⟨String.mk a, String.mk b, String.ext (by simp [String.data_append, hab])⟩
  · rintro ⟨a, b, rfl⟩
    by_cases hs : substr.data = []
    · cases hd : (a ++ substr ++ b).data with
      | nil => simp [Index, hs]
      | cons c r => simp [Index, hs, List.isPrefixOf]
    · cases hi : Index (a ++ substr ++ b).data substr.data with
      | some m => rfl
      | none =>
        exfalso
        have hinf : substr.data <:+: (a ++ substr ++ b).data :=
          ⟨a.data, b.data, by simp [String.data_append]⟩
        have hn : ∀ (l : List Char), substr.data <:+: l → Index l substr.data ≠ none := by
          intro l hl
          induction l with
          | nil =>
            exact absurd (List.eq_nil_of_infix_nil hl) hs
          | cons c l ih =>
            unfold Index
            split
            · simp
            · rename_i hp
              rcases List.infix_cons_iff.mp hl with h1 | h1
              · exact absurd (List.isPrefixOf_iff_prefix.mpr h1) hp
              · have := ih h1
                cases hk : Index l substr.data with
                | none => exact absurd hk this
                | some k => simp
        exact hn _ hinf hi

theorem serversSeparator_data : serversSeparator.data = ['\\', 'r', '\\', 'n'] := rfl

/-- The entry separator has no proper border, so no occurrence of it begins
inside an entry and ends inside the separator that follows the entry. -/
theorem separator_not_straddling (e rest t : List Char)
    (he : ¬ serversSeparator.data <:+: e) (ht : t <:+ e) (hne : t ≠ []) :
    serversSeparator.data.isPrefixOf (t ++ serversSeparator.data ++ rest) = false := by
  rw [Bool.eq_false_iff]
  intro hp
  have hpre := List.isPrefixOf_iff_prefix.mp hp
  rw [serversSeparator_data] at hpre he
  match t, ht, hne, hpre with
  | [], _, hne, _ => exact hne rfl
  | [a], _, _, hpre => simp [List.cons_prefix_cons] at hpre
  | [a, b], _, _, hpre => simp [List.cons_prefix_cons] at hpre
  | [a, b, c], _, _, hpre => simp [List.cons_prefix_cons] at hpre
  | a :: b :: c :: d :: t, ht, _, hpre =>
    simp [List.cons_prefix_cons] at hpre
    obtain ⟨rfl, rfl, rfl, rfl⟩ := hpre
    apply he
    have h1 : ['\\', 'r', '\\', 'n'] <+: '\\' :: 'r' :: '\\' :: 'n' :: t := ⟨t, rfl⟩
    exact h1.isInfix.trans ht.isInfix

theorem Join_length_bound (entries : List String) :
    entries.length ≤ (Join entries serversSeparator).data.length + 1 := by
  induction entries with
  | nil => simp
  | cons a rest ih =>
    cases rest with
    | nil => simp
    | cons b rest =>
      simp only [Join, String.data_append, List.length_append, List.length_cons,
        serversSeparator_data, List.length_nil] at ih ⊢
      omega

/-- The split loop takes entries joined by the separator apart again, when no
entry contains the separator and the bound allows a cut between each two
neighbours. -/
theorem splitLoop_Join (entries : List String) (hne : entries ≠ [])
    (h : ∀ e ∈ entries, ¬ serversSeparator.data <:+: e.data) (n : Nat)
    (hn : entries.length ≤ n + 1) :
    splitLoop serversSeparator.data n (Join entries serversSeparator).data
      = entries.map String.data := by
  induction entries generalizing n with
  | nil => exact absurd rfl hne
  | cons a rest ih =>
    have ha := h a (List.mem_cons_self _ _)
    cases rest with
    | nil =>
      simp only [Join, List.map_cons, List.map_nil]
      exact splitLoop_whole _ _ _ (Index_eq_none _ _ (by rw [serversSeparator_data]; simp) ha)
    | cons b rest =>
      cases n with
      | zero => simp at hn
      | succ k =>
        have hidx : Index (a.data ++ serversSeparator.data ++ (Join (b :: rest) serversSeparator).data)
            serversSeparator.data = some a.data.length :=
          Index_append_sep _ _ _ (fun t ht hne => separator_not_straddling a.data _ t ha ht hne)
        have ih2 := ih (by simp) (fun e he => h e (List.mem_cons_of_mem _ he)) k
          (by simp at hn ⊢; omega)
        simp only [Join, String.data_append]
        rw [splitLoop_cut _ _ _ _ hidx, List.append_assoc, List.take_left, List.drop_append,
          List.drop_left, ih2]
        rfl

theorem Split_Join (entries : List String) (hne : entries ≠ [])
    (h : ∀ e ∈ entries, Contains e serversSeparator = false) :
    Split (Join entries serversSeparator) serversSeparator = entries := by
  have h2 : ∀ e ∈ entries, ¬ serversSeparator.data <:+: e.data := by
    intro e he hinf
    have hc := h e he
    obtain ⟨a, b, hab⟩ := hinf
    have : Contains e serversSeparator = true :=
      (Contains_iff e serversSeparator).mpr
        ⟨String.mk a, String.mk b, String.ext (by simp [String.data_append, hab])⟩
    rw [hc] at this
    cases this
  unfold Split SplitList
  rw [if_neg (by rw [serversSeparator_data]; simp),
    splitLoop_Join entries hne h2 _ (Join_length_bound entries), List.map_map]
  exact List.map_id'' (fun _ => rfl) entries

theorem Join_ne_empty (a : String) (rest : List String) (sep : String) (ha : a ≠ "") :
    Join (a :: rest) sep ≠ "" := by
  intro h
  apply ha
  have hd := congrArg String.data h
  apply String.ext
  cases rest with
  | nil => simpa [Join] using hd
  | cons b rest =>
    simp only [Join, String.data_append] at hd
    have := congrArg List.length hd
    simp at this
    exact List.eq_nil_of_length_eq_zero this.1

theorem entryText_ne_empty (p : String × String) : entryText p ≠ "" := by
  intro h
  have := congrArg (fun s => s.data.length) h
  simp [entryText, String.data_append, pairSeparator] at this

/-- The loop over entries that all split into a URL and a description appends
one server per entry, in order. -/
theorem serversLoop_pairs (entries : List (String × String))
    (hpair : ∀ p ∈ entries, Split (entryText p) pairSeparator = [p.1, p.2])
    (acc : List Server) :
    serversLoop (entries.map entryText) acc
      = some (acc ++ entries.map (fun p => Server.mk p.1 p.2)) := by
  induction entries generalizing acc with
  | nil => simp [serversLoop]
  | cons p rest ih =>
    have hp := hpair p (List.mem_cons_self _ _)
    have hlen : (Split (entryText p) pairSeparator).length = 2 := by rw [hp]; rfl
    simp only [List.map_cons, serversLoop, dif_pos hlen]
    rw [ih (fun q hq => hpair q (List.mem_cons_of_mem _ hq))]
    simp [hp]

/-- The loop runs to its end exactly when every entry splits in two. -/
theorem serversLoop_isSome (entries : List String) (acc : List Server) :
    (serversLoop entries acc).isSome = true ↔
      ∀ e ∈ entries, (Split e pairSeparator).length = 2 := by
  induction entries generalizing acc with
  | nil => simp [serversLoop]
  | cons e rest ih =>
    by_cases hlen : (Split e pairSeparator).length = 2
    · rw [serversLoop, dif_pos hlen, ih]
      simp [hlen]
    · simp [serversLoop, dif_neg hlen, hlen]

theorem main_processed_isSome (process : String → String → GenerationInfo → Option String)
    (f : Flags) : (main process f).processed.isSome = (parseServers f.servers).isSome := by
  cases hp : parseServers f.servers with
  | none => rw [main_processed_none process f hp]; rfl
  | some servers => rw [main_processed_eq process f servers hp]; rfl

theorem parseServers_isSome (servers : String) :
    (parseServers servers).isSome = true ↔
      (servers = "" ∨ ∀ e ∈ Split servers serversSeparator, (Split e pairSeparator).length = 2) := by
  unfold parseServers
  by_cases hs : servers = ""
  · simp [hs]
  · rw [if_pos hs, serversLoop_isSome]
    simp [hs]

/-- An entry without the pair separator is a single piece. -/
theorem Split_without_pairSeparator (e : String)
    (h : ¬ ∃ a b : String, e = a ++ pairSeparator ++ b) :
    Split e pairSeparator = [e] := by
  have hc : Index e.data pairSeparator.data = none := by
    cases hi : Index e.data pairSeparator.data with
    | none => rfl
    | some m =>
      exfalso
      apply h
      apply (Contains_iff e pairSeparator).mp
      unfold Contains
      rw [hi]
      rfl
  unfold Split SplitList
  rw [if_neg (by decide), splitLoop_whole _ _ _ hc]
  rfl

/-! ### C4: servers round trip -/

/-- Claim C4: for a non-empty list of (URL, description) pairs whose entry texts
`URL ++ " = " ++ description` do not contain the entry separator and split on
" = " into exactly URL and description, `main` run on the entries joined by
the separator hands to the generation step a `Servers` list of the same
length holding those pairs in order, URL and Description in their fields. -/
theorem servers_round_trip
    (process : String → String → GenerationInfo → Option String) (f : Flags)
    (entries : List (String × String)) (hne : entries ≠ [])
    (hsep : ∀ p ∈ entries, ¬ ∃ a b : String, entryText p = a ++ serversSeparator ++ b)
    (hpair : ∀ p ∈ entries, Split (entryText p) pairSeparator = [p.1, p.2])
    (hf : f.servers = Join (entries.map entryText) serversSeparator) :
    ∃ info, (main process f).processed = some (f.inFile, f.inFile, info) ∧
      info.SwaggerInfo.Servers.length = entries.length ∧
      info.SwaggerInfo.Servers = entries.map (fun p => Server.mk p.1 p.2) := by
  have hsplit : Split f.servers serversSeparator = entries.map entryText := by
    rw [hf]
    apply Split_Join
    · simpa using hne
    · intro e he
      obtain ⟨p, hp, rfl⟩ := List.mem_map.mp he
      cases hc : Contains (entryText p) serversSeparator with
      | false => rfl
      | true => exact absurd ((Contains_iff _ _).mp hc) (hsep p hp)
  have hnonempty : f.servers ≠ "" := by
    rw [hf]
    cases entries with
    | nil => exact absurd rfl hne
    | cons p rest => exact Join_ne_empty _ _ _ (entryText_ne_empty p)
  have hparse : parseServers f.servers
      = some (entries.map (fun p => Server.mk p.1 p.2)) := by
    unfold parseServers
    rw [if_pos hnonempty, hsplit, serversLoop_pairs entries hpair]
    rfl
  exact ⟨_, main_processed_eq process f _ hparse, by simp, rfl⟩

/-- Claim C4 at the two entries of the usage text of the `servers` option. -/
theorem servers_round_trip_witness :
    ∃ info, (main processOk (flagsServers
        "http://some.url = some url description\\r\\nhttp://another.url = another url description")).processed
        = some ((flagsServers
        "http://some.url = some url description\\r\\nhttp://another.url = another url description").inFile,
          (flagsServers
        "http://some.url = some url description\\r\\nhttp://another.url = another url description").inFile,
          info) ∧
      info.SwaggerInfo.Servers.length
        = [("http://some.url", "some url description"),
           ("http://another.url", "another url description")].length ∧
      info.SwaggerInfo.Servers
        = [("http://some.url", "some url description"),
           ("http://another.url", "another url description")].map
            (fun p => Server.mk p.1 p.2) :=
  servers_round_trip processOk
    (flagsServers
      "http://some.url = some url description\\r\\nhttp://another.url = another url description")
    [("http://some.url", "some url description"),
     ("http://another.url", "another url description")]
    (by decide)
    (fun p hp hc => by
      have hall : ∀ q ∈ [("http://some.url", "some url description"),
          ("http://another.url", "another url description")],
          Contains (entryText q) serversSeparator = false := by decide
      have := (Contains_iff _ _).mpr hc
      rw [hall p hp] at this
      cases this)
    (by decide)
    (by decide)

/-! ### C5: servers validation -/

/-- Claim C5: `main` reaches the generation step exactly when the `servers` option
is empty (and then the server list is empty) or every entry between
separators splits on " = " into exactly two pieces; in every other run, such
as one with an entry without " = " or with a description that contains " = ",
`main` prints the wrong-parameters message and exits with nothing built and
nothing generated. -/
theorem servers_validation
    (process : String → String → GenerationInfo → Option String) (f : Flags) :
    ((main process f).processed.isSome = true ↔
      (f.servers = "" ∨
        ∀ e ∈ Split f.servers serversSeparator, (Split e pairSeparator).length = 2)) ∧
    (f.servers = "" →
      ∃ info, (main process f).processed = some (f.inFile, f.inFile, info) ∧
        info.SwaggerInfo.Servers = []) ∧
    ((main process f).processed.isSome = false →
      main process f = Run.mk [wrongServersMessage] none none 0) ∧
    (∀ e : String, (¬ ∃ a b : String, e = a ++ pairSeparator ++ b) →
      (Split e pairSeparator).length ≠ 2) ∧
    (main process (flagsServers "http://some.url")).processed = none ∧
    (main process (flagsServers "http://some.url = some = description")).processed = none := by
  refine ⟨?_, ?_, ?_, ?_, ?_, ?_⟩
  · rw [main_processed_isSome, parseServers_isSome]
  · intro hs
    have hp : parseServers f.servers = some [] := by simp [parseServers, hs]
    exact ⟨_, main_processed_eq process f _ hp, rfl⟩
  · intro h
    rw [main_processed_isSome] at h
    cases hp : parseServers f.servers with
    | none => exact main_processed_none process f hp
    | some servers => rw [hp] at h; cases h
  · intro e he
    rw [Split_without_pairSeparator e he]
    simp
  · rw [main_processed_none process _ (by decide)]
  · rw [main_processed_none process _ (by decide)]

end Gtg
